import Mathlib

/-!
Shallow embedding of the matching-and-validation engine of the
accounting_agent repository.

Records follow the data model of the engine: ordered mappings from field
names to scalar values (string, number, or null/missing).  Numbers are
modelled as rationals; Python float() on plain decimal literals is
modelled exactly, while exponent/underscore/infinity literal forms (never
exercised by the data considered here) are outside the modelled grammar.
Output rows of the single-field pipeline can additionally hold a nested
record value, because the code merges the matcher's pair dictionary into
the row; they get their own value type `OValue`.
-/

namespace AccountingAgent

/-- A scalar record value: null/missing, string, or number. -/
inductive Value where
  | null : Value
  | str : String → Value
  | num : ℚ → Value
deriving Repr, DecidableEq

/-- A record: an ordered field-name-to-value mapping. -/
abbrev Record := List (String × Value)

/-- Python `==` on scalar record values: numbers compare as rationals,
strings as strings, `None` only to `None`, and distinct kinds are
unequal. -/
def Value.pyEq : Value → Value → Bool
  | .null, .null => true
  | .str a, .str b => a == b
  | .num a, .num b => a == b
  | _, _ => false

/-- The first entry of the field list carrying the given key holds a value
Python-equal to `v`. -/
def keyEqField (k : String) (v : Value) : List (String × Value) → Bool
  | [] => false
  | (k2, v2) :: rest => if k == k2 then v.pyEq v2 else keyEqField k v rest

/-- Every field of the first list has a Python-equal value at the same key
in the second list. -/
def fieldsIncl : List (String × Value) → List (String × Value) → Bool
  | [], _ => true
  | (k, v) :: rest, other => keyEqField k v other && fieldsIncl rest other

/-- Python dict equality on records: key-wise equal values in both
directions (order-insensitive). -/
def recPyEq (a b : Record) : Bool := fieldsIncl a b && fieldsIncl b a

/-- Python `row[k]` presence-aware lookup: the value stored at key `k`,
if the key is present. -/
def Record.get? (r : Record) (k : String) : Option Value :=
  (r.find? (fun kv => kv.1 == k)).map (fun kv => kv.2)

/-- Python `row.get(k, d)`: default `d` when the key is absent. -/
def Record.getD (r : Record) (k : String) (d : Value) : Value :=
  (r.get? k).getD d

/-- Python `row.get(k)`: `None` when the key is absent. -/
def Record.getV (r : Record) (k : String) : Value :=
  r.getD k .null

/-- Digits of a decimal numeral read as a natural number. -/
def natFromDigits (cs : List Char) : ℕ :=
  cs.foldl (fun n c => 10 * n + (c.toNat - 48)) 0

/-- Python `float(s)` on a string: optional surrounding whitespace, an
optional sign, then a plain decimal numeral with at least one digit and at
most one point.  Returns `none` where Python raises `ValueError`. -/
def strToRat? (s : String) : Option ℚ :=
  let cs := ((s.toList.dropWhile Char.isWhitespace).reverse.dropWhile
    Char.isWhitespace).reverse
  let sgn : ℚ := match cs with
    | '-' :: _ => -1
    | _ => 1
  let body : List Char := match cs with
    | '-' :: rest => rest
    | '+' :: rest => rest
    | _ => cs
  let ip := body.takeWhile (fun c => c != '.')
  let rest := body.dropWhile (fun c => c != '.')
  match rest with
  | [] =>
      if ip.length > 0 && ip.all Char.isDigit then
        some (sgn * (natFromDigits ip : ℚ))
      else none
  | _ :: fp =>
      if (ip.length + fp.length > 0) && ip.all Char.isDigit
          && fp.all Char.isDigit then
        some (sgn * ((natFromDigits ip : ℚ)
          + (natFromDigits fp : ℚ) / (10 : ℚ) ^ fp.length))
      else none

/-- The two exception kinds the code distinguishes. -/
inductive PyError where
  | valueError : PyError
  | typeError : PyError
deriving Repr, DecidableEq

/-- Python `float(v)` on a record value: numbers pass through, strings are
parsed (`ValueError` on failure), `None` raises `TypeError`. -/
def pyFloat : Value → Except PyError ℚ
  | .num q => .ok q
  | .str s =>
      match strToRat? s with
      | some q => .ok q
      | none => .error .valueError
  | .null => .error .typeError

/-- Python `str(v)`.  The rendering of numerals is an abstraction (no
claim below compares stringified numerals). -/
def pyStr : Value → String
  | .null => "None"
  | .str s => s
  | .num q => toString q

/-- `numeric_field_validator` (src/tools/numeric_field_validator.py):
converts both values to float, returning false when either conversion
raises; otherwise compares the absolute difference against
`abs(value1) * (tolerance / 100)`. -/
def numeric_field_validator (value1 value2 : Value) (tolerance : ℚ) : Bool :=
  match pyFloat value1, pyFloat value2 with
  | .ok v1, .ok v2 => |v1 - v2| ≤ |v1| * (tolerance / 100)
  | _, _ => false

/-- `string_field_validator` (src/tools/string_field_validator.py):
equality of the values cast to strings. -/
def string_field_validator (value1 value2 : Value) : Bool :=
  pyStr value1 == pyStr value2

/-- `difference_validator` (gemini/src/tools/difference_validator.py):
`abs(amount_deposit - amount_billing) <= tolerance` with no conversion and
no exception handler, so non-numeric operands raise `TypeError`. -/
def difference_validator (amount_deposit amount_billing : Value)
    (tolerance : ℚ) : Except PyError Bool :=
  match amount_deposit, amount_billing with
  | .num a, .num b => .ok (|a - b| ≤ tolerance)
  | _, _ => .error .typeError

/-! ## Key-based matcher (gemini/src/tools/key_based_matcher.py) -/

/-- The target index: an insertion-ordered association list with
Python-dict key semantics. -/
abbrev Index := List (Value × Record)

/-- Python dict insertion: overwriting an existing (Python-equal) key keeps
the original key object and position and replaces the value; a new key is
appended. -/
def dictInsert (m : Index) (k : Value) (v : Record) : Index :=
  if m.any (fun p => p.1.pyEq k) then
    m.map (fun p => if p.1.pyEq k then (p.1, v) else p)
  else
    m ++ [(k, v)]

/-- Python `dict.get(k)`: the value at the first (unique) Python-equal key,
if any. -/
def indexFind? (m : Index) (k : Value) : Option Record :=
  (m.find? (fun p => p.1.pyEq k)).map (fun p => p.2)

/-- Python `v is None`. -/
def Value.isNull : Value → Bool
  | .null => true
  | _ => false

/-- The `billing_index` dict comprehension: fold the target records into a
dict keyed by the value at `billing_key`, skipping records where that
value is `None`/missing. -/
def buildIndex (billing_data : List Record) (billing_key : String) : Index :=
  billing_data.foldl
    (fun m row =>
      if (row.getV billing_key).isNull then m else dictInsert m (row.getV billing_key) row)
    []

/-- Python `x in l` for a list of records (`==` based). -/
def pyContains (l : List Record) (x : Record) : Bool :=
  l.any (fun y => recPyEq y x)

/-- Python `l.remove(x)`: drop the first record `==`-equal to `x`. -/
def pyRemove (l : List Record) (x : Record) : List Record :=
  match l with
  | [] => []
  | y :: ys => if recPyEq y x then ys else y :: pyRemove ys x

/-- The matcher's result dictionary. -/
structure MatchResult where
  matched_pairs : List (Record × Record)
  unmatched_deposit : List Record
  unmatched_billing : List Record
deriving Repr

/-- The matcher's source loop: for each deposit row, look its key value up
in the index; on a hit append the pair and remove the hit (guarded by a
membership test) from the remaining billing pool, otherwise append the row
to `unmatched_deposit`. -/
def matchLoop (index : Index) (deposit_key : String) :
    List Record → List (Record × Record) → List Record → List Record → MatchResult
  | [], mp, ud, rem => ⟨mp, ud, rem⟩
  | dep_row :: rest, mp, ud, rem =>
      match indexFind? index (dep_row.getV deposit_key) with
      | some bill_row =>
          matchLoop index deposit_key rest (mp ++ [(dep_row, bill_row)]) ud
            (if pyContains rem bill_row then pyRemove rem bill_row else rem)
      | none =>
          matchLoop index deposit_key rest mp (ud ++ [dep_row]) rem

/-- `key_based_matcher` (gemini/src/tools/key_based_matcher.py). -/
def key_based_matcher (deposit_data billing_data : List Record)
    (deposit_key billing_key : String) : MatchResult :=
  matchLoop (buildIndex billing_data billing_key) deposit_key deposit_data [] [] billing_data

/-! ## Generic matching workflow (src/workflows/generic_matching_workflow.py)

File reading and CSV writing are external collaborators; the embedding
covers the in-memory classification the workflow performs between the
matcher call and the writer calls. -/

/-- A value in an output row of the single-field pipeline: a scalar, or a
nested record (the matcher pair's `deposit`/`billing` entries, dragged in
when the code merges the pair dictionary into the row). -/
inductive OValue where
  | scalar : Value → OValue
  | table : Record → OValue
deriving Repr, DecidableEq

/-- An output row. -/
abbrev ORecord := List (String × OValue)

/-- A record viewed as an output row (the same Python dict, value for
value). -/
def Record.toO (r : Record) : ORecord :=
  r.map (fun kv => (kv.1, .scalar kv.2))

/-- Presence-aware key lookup on an output row. -/
def ORecord.get? (r : ORecord) (k : String) : Option OValue :=
  (r.find? (fun kv => kv.1 == k)).map (fun kv => kv.2)

/-- Python dict merge of two output rows, as in a double-splat literal:
keys of `a` in order with values overridden by `b` on collision, then the
keys of `b` not in `a`, in order. -/
def mergeO (a b : ORecord) : ORecord :=
  a.map (fun kv =>
    match b.get? kv.1 with
    | some v => (kv.1, v)
    | none => kv)
  ++ b.filter (fun kv => (a.get? kv.1).isNone)

/-- Mode A treatment of one matched pair: convert both numeric fields
(missing fields default to `0`, per `.get(field, 0)`); on a conversion
error the pair dictionary, tagged `validation_error`, is merged over the
two records into an `unreconciled` row; otherwise the validator routes the
merged record to `reconciled`, or to `unreconciled` with a signed
`difference` field. -/
def modeAStep (numeric_field target_numeric_field : String) (tolerance_pct : ℚ)
    (pair : Record × Record) : ORecord ⊕ ORecord :=
  let src := pair.1
  let tgt := pair.2
  match pyFloat (src.getD numeric_field (.num 0)),
        pyFloat (tgt.getD target_numeric_field (.num 0)) with
  | .ok v1, .ok v2 =>
      if numeric_field_validator (.num v1) (.num v2) tolerance_pct then
        .inl (mergeO src.toO tgt.toO)
      else
        .inr (mergeO (mergeO src.toO tgt.toO) [("difference", .scalar (.num (v1 - v2)))])
  | _, _ =>
      .inr (mergeO (mergeO src.toO tgt.toO)
        [("deposit", .table src), ("billing", .table tgt),
         ("validation_error", .scalar (.str "invalid_numeric"))])

/-- Mode A loop over the matched pairs, accumulating `reconciled` and
`unreconciled` in order. -/
def modeALoop (numeric_field target_numeric_field : String) (tolerance_pct : ℚ) :
    List (Record × Record) → List ORecord → List ORecord → List ORecord × List ORecord
  | [], reconciled, unreconciled => (reconciled, unreconciled)
  | pair :: rest, reconciled, unreconciled =>
      match modeAStep numeric_field target_numeric_field tolerance_pct pair with
      | .inl r => modeALoop numeric_field target_numeric_field tolerance_pct rest
          (reconciled ++ [r]) unreconciled
      | .inr r => modeALoop numeric_field target_numeric_field tolerance_pct rest
          reconciled (unreconciled ++ [r])

/-- Mode A of `generic_matching_workflow` (`validation_rules is None`):
classify every matched pair, then append all unmatched records, source
side first, to `unreconciled` unchanged. -/
def modeA (results : MatchResult) (numeric_field target_numeric_field : String)
    (tolerance_pct : ℚ) : List ORecord × List ORecord :=
  let (reconciled, unreconciled) :=
    modeALoop numeric_field target_numeric_field tolerance_pct results.matched_pairs [] []
  (reconciled,
    unreconciled ++ results.unmatched_deposit.map Record.toO
      ++ results.unmatched_billing.map Record.toO)

/-- Python truthiness of a record value, as used by the
`rule.get("source_field") or rule.get("field")` idiom. -/
def Value.truthy : Value → Bool
  | .null => false
  | .str s => s != ""
  | .num q => q != 0

/-- The compared source field of a rule:
`rule.get("source_field") or rule.get("field")`. -/
def srcFieldOf (rule : Record) : Value :=
  if (rule.getV "source_field").truthy then rule.getV "source_field"
  else rule.getV "field"

/-- The compared target field of a rule:
`rule.get("target_field", src_field)` — the source field stands in only
when the key is absent. -/
def tgtFieldOf (rule : Record) : Value :=
  (rule.get? "target_field").getD (srcFieldOf rule)

/-- Python `record.get(k)` where `k` is an arbitrary value: records are
string-keyed, so any non-string key misses. -/
def getByValue (r : Record) (k : Value) : Value :=
  match k with
  | .str s => r.getV s
  | _ => .null

/-- Mode B evaluation of one rule against one matched pair.  The tolerance
conversion `float(rule.get("tolerance_pct", 0.0))` sits outside the
exception handler, so its failure propagates; conversion failure of the
compared values counts as a mismatch. -/
def ruleMismatch (src tgt rule : Record) : Except PyError Bool :=
  let v1 := getByValue src (srcFieldOf rule)
  let v2 := getByValue tgt (tgtFieldOf rule)
  if (rule.getV "validator").pyEq (.str "numeric") then
    match pyFloat (rule.getD "tolerance_pct" (.num 0)) with
    | .error e => .error e
    | .ok tol =>
        match pyFloat v1, pyFloat v2 with
        | .ok n1, .ok n2 => .ok (!numeric_field_validator (.num n1) (.num n2) tol)
        | _, _ => .ok true
  else
    .ok (!string_field_validator v1 v2)

/-- Python dict-literal insertion (last occurrence of a key wins, first
position kept). -/
def recInsert (r : Record) (k : String) (v : Value) : Record :=
  if r.any (fun kv => kv.1 == k) then
    r.map (fun kv => if kv.1 == k then (kv.1, v) else kv)
  else
    r ++ [(k, v)]

/-- The Mode B report row appended for a mismatching rule. -/
def ruleRow (source_key : String) (key_value : Value) (rule src tgt : Record) : Record :=
  let v1 := getByValue src (srcFieldOf rule)
  let v2 := getByValue tgt (tgtFieldOf rule)
  let severity := rule.getD "severity" (.str "Error")
  recInsert (recInsert (recInsert (recInsert (recInsert [] source_key key_value)
    "field" (srcFieldOf rule)) "master_value" v1) "list_value" v2) "severity" severity

/-- Mode B inner loop: evaluate the rules against one matched pair in list
order, appending one report row per mismatch. -/
def modeBRules (source_key : String) (src tgt : Record) :
    List Record → Except PyError (List Record)
  | [] => .ok []
  | rule :: rest => do
      let mismatch ← ruleMismatch src tgt rule
      let rows ← modeBRules source_key src tgt rest
      .ok ((if mismatch then [ruleRow source_key (src.getV source_key) rule src tgt] else [])
        ++ rows)

/-- Mode B outer loop over the matched pairs. -/
def modeBPairs (source_key : String) (rules : List Record) :
    List (Record × Record) → Except PyError (List Record)
  | [] => .ok []
  | (src, tgt) :: rest => do
      let rows ← modeBRules source_key src tgt rules
      let more ← modeBPairs source_key rules rest
      .ok (rows ++ more)

/-- Mode B of `generic_matching_workflow` (`validation_rules` supplied):
the report rows, built from the matched pairs only. -/
def modeB (results : MatchResult) (rules : List Record) (source_key : String) :
    Except PyError (List Record) :=
  modeBPairs source_key rules results.matched_pairs

/-! ## validate_and_sort_matches (src/nodes.py)

The legacy single-field node: converts the `amount` fields with an
exception handler that catches only `ValueError`, so a `TypeError` (a null
amount) escapes. -/

/-- Python dict merge of two plain records, as in a double-splat
literal. -/
def mergeRec (a b : Record) : Record :=
  a.map (fun kv =>
    match b.get? kv.1 with
    | some v => (kv.1, v)
    | none => kv)
  ++ b.filter (fun kv => (a.get? kv.1).isNone)

/-- One pair's amount conversion in `validate_and_sort_matches`:
`ValueError` is caught (yielding `none`, the invalid-amount branch) while
`TypeError` propagates. -/
def nodeConvert (dep bill : Record) : Except PyError (Option (ℚ × ℚ)) :=
  match pyFloat (dep.getD "amount" (.num 0)) with
  | .error .typeError => .error .typeError
  | .error .valueError => .ok none
  | .ok a =>
      match pyFloat (bill.getD "amount" (.num 0)) with
      | .error .typeError => .error .typeError
      | .error .valueError => .ok none
      | .ok b => .ok (some (a, b))

/-- `validate_and_sort_matches` loop body over the matched pairs. -/
def nodeLoop : List (Record × Record) → List Record → List Record →
    Except PyError (List Record × List Record)
  | [], reconciled, unreconciled => .ok (reconciled, unreconciled)
  | (dep, bill) :: rest, reconciled, unreconciled => do
      match ← nodeConvert dep bill with
      | none =>
          nodeLoop rest reconciled
            (unreconciled ++ [recInsert (mergeRec dep bill)
              "validation_error" (.str "invalid_amount")])
      | some (a, b) =>
          match ← difference_validator (.num a) (.num b) (1 / 100) with
          | true => nodeLoop rest (reconciled ++ [mergeRec dep bill]) unreconciled
          | false =>
              nodeLoop rest reconciled
                (unreconciled ++ [recInsert (mergeRec dep bill)
                  "difference" (.num (a - b))])

/-- `validate_and_sort_matches` (src/nodes.py): classify the matched
pairs, then append the unmatched records to `unreconciled`. -/
def validate_and_sort_matches (results : MatchResult) :
    Except PyError (List Record × List Record) := do
  let (reconciled, unreconciled) ← nodeLoop results.matched_pairs [] []
  .ok (reconciled, unreconciled ++ results.unmatched_deposit ++ results.unmatched_billing)

/-! ## Helper lemmas -/

/-- Python equality of scalar record values coincides with structural
equality. -/
lemma pyEq_iff (v w : Value) : v.pyEq w = true ↔ v = w := by
  cases v <;> cases w <;> simp [Value.pyEq, beq_iff_eq]

lemma pyEq_null_right (v : Value) : v.pyEq .null = v.isNull := by
  cases v <;> rfl

lemma isNull_eq_null (v : Value) (h : v.isNull = true) : v = .null := by
  cases v <;> simp_all [Value.isNull]

/-- Keys of `dictInsert m k v` are keys of `m` or `k` itself. -/
lemma dictInsert_key_mem (m : Index) (k : Value) (v : Record) :
    ∀ p ∈ dictInsert m k v, (∃ q ∈ m, p.1 = q.1) ∨ p.1 = k := by
  intro p hp
  unfold dictInsert at hp
  split at hp
  · obtain ⟨q, hq, hfq⟩ := List.mem_map.mp hp
    left
    refine ⟨q, hq, ?_⟩
    by_cases h : q.1.pyEq k = true <;> simp [h] at hfq <;> subst hfq <;> rfl
  · rcases List.mem_append.mp hp with h | h
    · exact Or.inl ⟨p, h, rfl⟩
    · simp at h; subst h; exact Or.inr rfl

/-- Every key of the built index satisfies any property enjoyed by the
non-null key values of the target records. -/
lemma buildIndex_keys_prop (P : Value → Prop) (billing_data : List Record)
    (billing_key : String)
    (h : ∀ r ∈ billing_data, (r.getV billing_key).isNull = false →
      P (r.getV billing_key)) :
    ∀ p ∈ buildIndex billing_data billing_key, P p.1 ∧ p.1.isNull = false := by
  suffices H : ∀ (l : List Record) (acc : Index),
      (∀ r ∈ l, (r.getV billing_key).isNull = false → P (r.getV billing_key)) →
      (∀ p ∈ acc, P p.1 ∧ p.1.isNull = false) →
      ∀ p ∈ l.foldl
        (fun m row => if (row.getV billing_key).isNull then m
          else dictInsert m (row.getV billing_key) row) acc,
        P p.1 ∧ p.1.isNull = false by
    intro p hp
    exact H billing_data [] h (by simp) p hp
  intro l
  induction l with
  | nil => intro acc _ hacc p hp; exact hacc p hp
  | cons r rest ih =>
      intro acc hl hacc p hp
      simp only [List.foldl_cons] at hp
      by_cases hr : (r.getV billing_key).isNull = true
      · rw [if_pos hr] at hp
        exact ih acc (fun x hx => hl x (List.mem_cons_of_mem r hx)) hacc p hp
      · rw [if_neg hr] at hp
        refine ih _ (fun x hx => hl x (List.mem_cons_of_mem r hx)) ?_ p hp
        intro q hq
        rcases dictInsert_key_mem acc _ r q hq with ⟨q', hq', hqq⟩ | hqk
        · rw [hqq]; exact hacc q' hq'
        · rw [hqk]
          refine ⟨hl r (List.mem_cons_self r rest) ?_, ?_⟩ <;>
            simpa using hr

/-- Looking up `None` in the built index always misses: null target keys
are skipped during construction. -/
lemma buildIndex_find_null (billing_data : List Record) (billing_key : String) :
    indexFind? (buildIndex billing_data billing_key) .null = none := by
  have hk := buildIndex_keys_prop (fun _ => True) billing_data billing_key
    (fun _ _ _ => trivial)
  unfold indexFind?
  rw [List.find?_eq_none.mpr]
  · rfl
  · intro p hp
    rw [pyEq_null_right]
    simp [(hk p hp).2]

/-- Closed form of the matcher loop's matched pairs: the accumulated
prefix followed by one pair per source record whose key hits the index. -/
lemma matchLoop_matched (index : Index) (deposit_key : String) :
    ∀ (deps : List Record) (mp : List (Record × Record)) (ud rem : List Record),
    (matchLoop index deposit_key deps mp ud rem).matched_pairs
      = mp ++ deps.filterMap
          (fun r => (indexFind? index (r.getV deposit_key)).map (fun b => (r, b))) := by
  intro deps
  induction deps with
  | nil => intro mp ud rem; simp [matchLoop]
  | cons d rest ih =>
      intro mp ud rem
      cases h : indexFind? index (d.getV deposit_key) with
      | some b => simp [matchLoop, h, ih]
      | none => simp [matchLoop, h, ih]

/-- Closed form of the matcher loop's unmatched source records. -/
lemma matchLoop_unmatched (index : Index) (deposit_key : String) :
    ∀ (deps : List Record) (mp : List (Record × Record)) (ud rem : List Record),
    (matchLoop index deposit_key deps mp ud rem).unmatched_deposit
      = ud ++ deps.filter
          (fun r => (indexFind? index (r.getV deposit_key)).isNone) := by
  intro deps
  induction deps with
  | nil => intro mp ud rem; simp [matchLoop]
  | cons d rest ih =>
      intro mp ud rem
      cases h : indexFind? index (d.getV deposit_key) with
      | some b => simp [matchLoop, h, ih]
      | none => simp [matchLoop, h, ih]

/-- Every source record contributes exactly one entry to either the
matched pairs or the unmatched source records. -/
lemma matchLoop_counts (index : Index) (deposit_key : String) :
    ∀ (deps : List Record) (mp : List (Record × Record)) (ud rem : List Record),
    (matchLoop index deposit_key deps mp ud rem).matched_pairs.length
      + (matchLoop index deposit_key deps mp ud rem).unmatched_deposit.length
      = mp.length + ud.length + deps.length := by
  intro deps
  induction deps with
  | nil => intro mp ud rem; simp [matchLoop]
  | cons d rest ih =>
      intro mp ud rem
      cases h : indexFind? index (d.getV deposit_key) with
      | some b => simp [matchLoop, h, ih]; omega
      | none => simp [matchLoop, h, ih]; omega

/-- Python `remove` drops at most one element. -/
lemma pyRemove_length (l : List Record) (x : Record) :
    l.length ≤ (pyRemove l x).length + 1 := by
  induction l with
  | nil => simp [pyRemove]
  | cons y ys ih =>
      simp only [pyRemove]
      split
      · simp
      · simp only [List.length_cons]; omega

/-- The matched-pair count plus the remaining-pool size never shrinks as
the matcher loop runs. -/
lemma matchLoop_billing_count (index : Index) (deposit_key : String) :
    ∀ (deps : List Record) (mp : List (Record × Record)) (ud rem : List Record),
    mp.length + rem.length
      ≤ (matchLoop index deposit_key deps mp ud rem).matched_pairs.length
        + (matchLoop index deposit_key deps mp ud rem).unmatched_billing.length := by
  intro deps
  induction deps with
  | nil => intro mp ud rem; simp [matchLoop]
  | cons d rest ih =>
      intro mp ud rem
      cases h : indexFind? index (d.getV deposit_key) with
      | some b =>
          simp only [matchLoop, h]
          by_cases hc : pyContains rem b = true
          · rw [if_pos hc]
            refine le_trans ?_ (ih (mp ++ [(d, b)]) ud (pyRemove rem b))
            have := pyRemove_length rem b
            simp only [List.length_append, List.length_singleton]
            omega
          · rw [if_neg hc]
            refine le_trans ?_ (ih (mp ++ [(d, b)]) ud rem)
            simp only [List.length_append, List.length_singleton]
            omega
      | none =>
          simp only [matchLoop, h]
          exact ih mp (ud ++ [d]) rem

lemma pyEq_null_left (v : Value) : Value.pyEq .null v = v.isNull := by
  cases v <;> rfl

/-- Overwriting the value at an existing key: the lookup for that key
returns the new value. -/
lemma find_map_overwrite (m : Index) (kr : Value) (v : Record)
    (ha : m.any (fun p => p.1.pyEq kr) = true) :
    (List.find? (fun p => p.1.pyEq kr)
      (m.map (fun p => if p.1.pyEq kr then (p.1, v) else p))).map
        (fun p => p.2) = some v := by
  induction m with
  | nil => simp at ha
  | cons p rest ih =>
      by_cases hp : p.1.pyEq kr = true
      · rw [List.map_cons, if_pos hp, List.find?_cons_of_pos _ (by simpa using hp)]
        rfl
      · have ha' : rest.any (fun q => q.1.pyEq kr) = true := by
          simp only [List.any_cons, hp, Bool.false_or] at ha
          exact ha
        rw [List.map_cons, if_neg hp, List.find?_cons_of_neg _ (by simpa using hp)]
        exact ih ha'

/-- Overwriting the value at one key leaves lookups of other keys
untouched. -/
lemma find_map_overwrite_ne (m : Index) (kr : Value) (v : Record) (k : Value)
    (hk : kr ≠ k) :
    List.find? (fun p => p.1.pyEq k)
        (m.map (fun p => if p.1.pyEq kr then (p.1, v) else p))
      = List.find? (fun p => p.1.pyEq k) m := by
  induction m with
  | nil => rfl
  | cons p rest ih =>
      by_cases hp : p.1.pyEq kr = true
      · have hpk : p.1.pyEq k = false := by
          rw [pyEq_iff] at hp
          subst hp
          rw [← Bool.not_eq_true, pyEq_iff]
          exact hk
        rw [List.map_cons, if_pos hp,
          List.find?_cons_of_neg _ (by simp [hpk]),
          List.find?_cons_of_neg _ (by simp [hpk])]
        exact ih
      · rw [List.map_cons, if_neg hp]
        by_cases hpk : p.1.pyEq k = true
        · rw [List.find?_cons_of_pos _ (by simpa using hpk),
            List.find?_cons_of_pos _ (by simpa using hpk)]
        · rw [List.find?_cons_of_neg _ (by simp [hpk]),
            List.find?_cons_of_neg _ (by simp [hpk])]
          exact ih

/-- Python dict lookup after insertion: the inserted key now maps to the
inserted value, every other key is unaffected. -/
lemma dictInsert_find (m : Index) (kr : Value) (v : Record) (k : Value) :
    indexFind? (dictInsert m kr v) k
      = if kr.pyEq k then some v else indexFind? m k := by
  by_cases hk : kr = k
  · subst hk
    rw [if_pos ((pyEq_iff kr kr).mpr rfl)]
    unfold dictInsert indexFind?
    by_cases ha : m.any (fun p => p.1.pyEq kr) = true
    · rw [if_pos ha]
      exact find_map_overwrite m kr v ha
    · rw [if_neg ha, List.find?_append]
      have hnone : List.find? (fun p => p.1.pyEq kr) m = none := by
        rw [List.find?_eq_none]
        intro p hp
        intro hcon
        exact ha (List.any_eq_true.mpr ⟨p, hp, hcon⟩)
      simp [hnone, List.find?, (pyEq_iff kr kr).mpr rfl]
  · have hkr : kr.pyEq k = false := by
      rw [← Bool.not_eq_true, pyEq_iff]; exact hk
    rw [if_neg (by simp [hkr])]
    unfold dictInsert indexFind?
    by_cases ha : m.any (fun p => p.1.pyEq kr) = true
    · rw [if_pos ha, find_map_overwrite_ne m kr v k hk]
    · rw [if_neg ha, List.find?_append]
      simp [List.find?, hkr]

/-- The built index answers a non-null key lookup with the last target
record carrying that key value: later duplicates overwrite earlier ones
during the dict-comprehension construction. -/
lemma buildIndex_find_getLast (billing_data : List Record) (billing_key : String)
    (k : Value) (hk : k.isNull = false) :
    indexFind? (buildIndex billing_data billing_key) k
      = (billing_data.filter (fun r => (r.getV billing_key).pyEq k)).getLast? := by
  induction billing_data using List.reverseRecOn with
  | nil => rfl
  | append_singleton l r ih =>
      have hfold : buildIndex (l ++ [r]) billing_key
          = (if (r.getV billing_key).isNull then buildIndex l billing_key
             else dictInsert (buildIndex l billing_key) (r.getV billing_key) r) := by
        unfold buildIndex
        rw [List.foldl_append]
        rfl
      rw [hfold, List.filter_append]
      by_cases hr : (r.getV billing_key).isNull = true
      · have hpred : ((r.getV billing_key).pyEq k) = false := by
          rw [isNull_eq_null _ hr, pyEq_null_left, hk]
        simp [hr, hpred, ih]
      · rw [if_neg hr, dictInsert_find]
        by_cases hp : (r.getV billing_key).pyEq k = true
        · simp [hp, List.getLast?_concat]
        · simp [hp, ih]

/-- Closed form of the Mode A loop: the two accumulators extended by the
classification of each pair, in order. -/
lemma modeALoop_spec (numeric_field target_numeric_field : String)
    (tolerance_pct : ℚ) :
    ∀ (pairs : List (Record × Record)) (reconciled unreconciled : List ORecord),
    modeALoop numeric_field target_numeric_field tolerance_pct pairs reconciled unreconciled
      = (reconciled ++ pairs.filterMap
          (fun p => (modeAStep numeric_field target_numeric_field tolerance_pct p).getLeft?),
         unreconciled ++ pairs.filterMap
          (fun p => (modeAStep numeric_field target_numeric_field tolerance_pct p).getRight?)) := by
  intro pairs
  induction pairs with
  | nil => intro reconciled unreconciled; simp [modeALoop]
  | cons p rest ih =>
      intro reconciled unreconciled
      cases h : modeAStep numeric_field target_numeric_field tolerance_pct p with
      | inl r => simp [modeALoop, h, ih]
      | inr r => simp [modeALoop, h, ih]

/-- Closed form of the Mode B rule loop when no rule's tolerance
conversion raises. -/
lemma modeBRules_spec (source_key : String) (src tgt : Record) :
    ∀ (rules : List Record),
    (∀ rule ∈ rules, ∃ b, ruleMismatch src tgt rule = .ok b) →
    modeBRules source_key src tgt rules
      = .ok (rules.filterMap (fun rule =>
          match ruleMismatch src tgt rule with
          | .ok true => some (ruleRow source_key (src.getV source_key) rule src tgt)
          | _ => none)) := by
  intro rules
  induction rules with
  | nil => intro _; rfl
  | cons rule rest ih =>
      intro h
      obtain ⟨b, hb⟩ := h rule (List.mem_cons_self rule rest)
      have hrest := ih (fun q hq => h q (List.mem_cons_of_mem rule hq))
      cases b with
      | true => simp [modeBRules, hb, hrest, Bind.bind, Except.bind]
      | false => simp [modeBRules, hb, hrest, Bind.bind, Except.bind]

/-- Closed form of the Mode B pair loop when no rule's tolerance
conversion raises on any pair. -/
lemma modeBPairs_spec (source_key : String) (rules : List Record) :
    ∀ (pairs : List (Record × Record)),
    (∀ p ∈ pairs, ∀ rule ∈ rules, ∃ b, ruleMismatch p.1 p.2 rule = .ok b) →
    modeBPairs source_key rules pairs
      = .ok (pairs.map (fun p =>
          rules.filterMap (fun rule =>
            match ruleMismatch p.1 p.2 rule with
            | .ok true => some (ruleRow source_key (p.1.getV source_key) rule p.1 p.2)
            | _ => none))).flatten := by
  intro pairs
  induction pairs with
  | nil => intro _; rfl
  | cons p rest ih =>
      intro h
      have hp := modeBRules_spec source_key p.1 p.2 rules
        (fun rule hr => h p (List.mem_cons_self p rest) rule hr)
      have hrest := ih (fun q hq rule hr => h q (List.mem_cons_of_mem p hq) rule hr)
      obtain ⟨src, tgt⟩ := p
      simp [modeBPairs, hp, hrest, Bind.bind, Except.bind]

/-- Dict-literal insertion: the inserted key maps to the inserted value. -/
lemma recInsert_getV (r : Record) (k : String) (v : Value) :
    (recInsert r k v).getV k = v := by
  unfold recInsert
  by_cases ha : r.any (fun kv => kv.1 == k) = true
  · rw [if_pos ha]
    induction r with
    | nil => simp at ha
    | cons p rest ih =>
        by_cases hp : p.1 == k
        · simp only [List.map_cons, if_pos hp]
          rw [Record.getV, Record.getD, Record.get?,
            List.find?_cons_of_pos _ (by simpa using hp)]
          rfl
        · have ha' : rest.any (fun kv => kv.1 == k) = true := by
            simp only [List.any_cons, hp, Bool.false_or] at ha
            exact ha
          have ih' := ih ha'
          simp only [List.map_cons, if_neg hp]
          rw [Record.getV, Record.getD, Record.get?,
            List.find?_cons_of_neg _ (by simpa using hp)]
          rw [Record.getV, Record.getD, Record.get?] at ih'
          exact ih'
  · rw [if_neg ha]
    have hnone : List.find? (fun kv => kv.1 == k) r = none := by
      rw [List.find?_eq_none]
      intro p hp hcon
      exact ha (List.any_eq_true.mpr ⟨p, hp, hcon⟩)
    rw [Record.getV, Record.getD, Record.get?, List.find?_append, hnone]
    simp [List.find?]

/-- Dict-literal insertion leaves other keys untouched. -/
lemma recInsert_getV_ne (r : Record) (k : String) (v : Value) (k2 : String)
    (h : k2 ≠ k) :
    (recInsert r k v).getV k2 = r.getV k2 := by
  unfold recInsert
  by_cases ha : r.any (fun kv => kv.1 == k) = true
  · rw [if_pos ha]
    clear ha
    induction r with
    | nil => rfl
    | cons p rest ih =>
        by_cases hp : p.1 == k
        · have hpk : (p.1 == k2) = false := by
            have : p.1 = k := by simpa using hp
            subst this
            simpa using fun hcon => h hcon.symm
          simp only [List.map_cons, if_pos hp]
          rw [Record.getV, Record.getD, Record.get?,
            List.find?_cons_of_neg _ (by simp [hpk]),
            show (Record.getV (p :: rest) k2) = (Record.getV rest k2) by
              rw [Record.getV, Record.getD, Record.get?,
                List.find?_cons_of_neg _ (by simp [hpk])]; rfl]
          rw [Record.getV, Record.getD, Record.get?] at ih
          exact ih
        · by_cases hpk : p.1 == k2
          · simp only [List.map_cons, if_neg hp]
            rw [Record.getV, Record.getD, Record.get?,
              List.find?_cons_of_pos _ (by simpa using hpk),
              Record.getV, Record.getD, Record.get?,
              List.find?_cons_of_pos _ (by simpa using hpk)]
          · simp only [List.map_cons, if_neg hp]
            rw [Record.getV, Record.getD, Record.get?,
              List.find?_cons_of_neg _ (by simp [hpk]),
              show (Record.getV (p :: rest) k2) = (Record.getV rest k2) by
                rw [Record.getV, Record.getD, Record.get?,
                  List.find?_cons_of_neg _ (by simp [hpk])]; rfl]
            rw [Record.getV, Record.getD, Record.get?] at ih
            exact ih
  · rw [if_neg ha]
    rw [Record.getV, Record.getD, Record.get?, List.find?_append]
    have htail : List.find? (fun kv => kv.1 == k2) [(k, v)] = none := by
      simp [List.find?, show (k == k2) = false by simpa using fun hcon => h hcon.symm]
    rw [htail]
    cases hfind : List.find? (fun kv => kv.1 == k2) r <;>
      simp [Record.getV, Record.getD, Record.get?, hfind]

/-- When either conversion raises, the numeric validator returns false. -/
lemma numeric_validator_error_false (v1 v2 : Value) (t : ℚ)
    (h : (∃ e, pyFloat v1 = .error e) ∨ (∃ e, pyFloat v2 = .error e)) :
    numeric_field_validator v1 v2 t = false := by
  rcases h with ⟨e, he⟩ | ⟨e, he⟩
  · simp [numeric_field_validator, he]
  · cases h1 : pyFloat v1 <;> simp [numeric_field_validator, h1, he]

/-! ## Claim theorems -/

/-- C1 counterexample.  The claim states that matched pairs plus unmatched
target records never exceed the target record count, with equality exactly
when no target key value is duplicated.  Both parts fail: two source
records with the same key each match the single target record (2 + 0 > 1),
and a target set with a duplicated key value can still attain equality
(one source record consumes the last-indexed duplicate, the other
duplicate stays in `unmatched_billing`, 1 + 1 = 2). -/
theorem C1_counterexample :
    ¬ ((key_based_matcher
          [[("k", Value.num 1)], [("k", Value.num 1), ("b", Value.num 9)]]
          [[("k", Value.num 1)]] "k" "k").matched_pairs.length
        + (key_based_matcher
          [[("k", Value.num 1)], [("k", Value.num 1), ("b", Value.num 9)]]
          [[("k", Value.num 1)]] "k" "k").unmatched_billing.length
        ≤ ([[("k", Value.num 1)]] : List Record).length)
    ∧ ((key_based_matcher [[("k", Value.num 2)]]
          [[("k", Value.num 2), ("a", Value.num 1)], [("k", Value.num 2), ("a", Value.num 2)]]
          "k" "k").matched_pairs.length
        + (key_based_matcher [[("k", Value.num 2)]]
          [[("k", Value.num 2), ("a", Value.num 1)], [("k", Value.num 2), ("a", Value.num 2)]]
          "k" "k").unmatched_billing.length
        = ([[("k", Value.num 2), ("a", Value.num 1)],
            [("k", Value.num 2), ("a", Value.num 2)]] : List Record).length)
    ∧ (Record.getV [("k", Value.num 2), ("a", Value.num 1)] "k"
        = Record.getV [("k", Value.num 2), ("a", Value.num 2)] "k")
    ∧ (Record.getV [("k", Value.num 2), ("a", Value.num 1)] "k").isNull = false := by
  refine ⟨by decide, by decide, by decide, by decide⟩

/-- C1 (amended): for every matcher invocation, the number of matched
pairs plus the number of unmatched target records is at least the number
of target records (each match removes at most one record from the
remaining target pool, and repeated source keys can match without
removing). -/
theorem C1_amended_lower_bound :
    ∀ (deposit_data billing_data : List Record) (deposit_key billing_key : String),
    billing_data.length
      ≤ (key_based_matcher deposit_data billing_data deposit_key billing_key).matched_pairs.length
        + (key_based_matcher deposit_data billing_data deposit_key billing_key).unmatched_billing.length := by
  intro deposit_data billing_data deposit_key billing_key
  have h := matchLoop_billing_count (buildIndex billing_data billing_key) deposit_key
    deposit_data [] [] billing_data
  simpa [key_based_matcher] using h

/-- C2: every source record lands in exactly one of `matched_pairs` or
`unmatched_deposit`, so their counts sum to the source record count; a
source record whose key is null/missing or misses the target index is
appended to `unmatched_deposit`. -/
theorem C2_source_partition :
    ∀ (deposit_data billing_data : List Record) (deposit_key billing_key : String),
    ((key_based_matcher deposit_data billing_data deposit_key billing_key).matched_pairs.length
      + (key_based_matcher deposit_data billing_data deposit_key billing_key).unmatched_deposit.length
      = deposit_data.length)
    ∧ (∀ r ∈ deposit_data,
        ((r.getV deposit_key).isNull = true
          ∨ indexFind? (buildIndex billing_data billing_key) (r.getV deposit_key) = none) →
        r ∈ (key_based_matcher deposit_data billing_data deposit_key billing_key).unmatched_deposit) := by
  intro deposit_data billing_data deposit_key billing_key
  constructor
  · have h := matchLoop_counts (buildIndex billing_data billing_key) deposit_key
      deposit_data [] [] billing_data
    simpa [key_based_matcher] using h
  · intro r hr hmiss
    have hnone : indexFind? (buildIndex billing_data billing_key) (r.getV deposit_key) = none := by
      rcases hmiss with hnull | hnone

      · rw [isNull_eq_null _ hnull]
        exact buildIndex_find_null billing_data billing_key
      · exact hnone
    rw [key_based_matcher, matchLoop_unmatched]
    rw [List.nil_append]
    exact List.mem_filter.mpr ⟨hr, by simp [hnone]⟩

/-- C2 witness: a source record with no key field is reported unmatched. -/
theorem C2_witness :
    [("x", Value.num 7)] ∈ (key_based_matcher [[("x", Value.num 7)]] [] "k" "k").unmatched_deposit :=
  (C2_source_partition [[("x", Value.num 7)]] [] "k" "k").2
    [("x", Value.num 7)] (by decide) (Or.inl (by decide))

/-- C3 counterexample.  The claim states that on duplicate target key
values the index retains the first occurrence as the lookup candidate.  In
fact the dict comprehension lets later entries overwrite earlier ones, so
the single source record pairs with the second occurrence and the first
occurrence is left in `unmatched_billing`. -/
theorem C3_counterexample :
    ¬ ((key_based_matcher [[("k", Value.num 1)]]
          [[("k", Value.num 1), ("a", Value.num 1)], [("k", Value.num 1), ("a", Value.num 2)]]
          "k" "k").matched_pairs
        = [([("k", Value.num 1)], [("k", Value.num 1), ("a", Value.num 1)])])
    ∧ ((key_based_matcher [[("k", Value.num 1)]]
          [[("k", Value.num 1), ("a", Value.num 1)], [("k", Value.num 1), ("a", Value.num 2)]]
          "k" "k").matched_pairs
        = [([("k", Value.num 1)], [("k", Value.num 1), ("a", Value.num 2)])])
    ∧ ((key_based_matcher [[("k", Value.num 1)]]
          [[("k", Value.num 1), ("a", Value.num 1)], [("k", Value.num 1), ("a", Value.num 2)]]
          "k" "k").unmatched_billing
        = [[("k", Value.num 1), ("a", Value.num 1)]]) := by
  refine ⟨by decide, by decide, by decide⟩

/-- C3 (amended): for a non-null key value, the index lookup returns the
last target record carrying that key value (later duplicates overwrite
earlier ones during index construction), and every matched pair's target
component is exactly such an index lookup, so the non-last duplicate
occurrences are never selected by any source lookup. -/
theorem C3_amended_last_occurrence :
    (∀ (billing_data : List Record) (billing_key : String) (k : Value),
      k.isNull = false →
      indexFind? (buildIndex billing_data billing_key) k
        = (billing_data.filter (fun r => (r.getV billing_key).pyEq k)).getLast?)
    ∧ (∀ (deposit_data billing_data : List Record) (deposit_key billing_key : String),
      (key_based_matcher deposit_data billing_data deposit_key billing_key).matched_pairs
        = deposit_data.filterMap
            (fun r => (indexFind? (buildIndex billing_data billing_key)
              (r.getV deposit_key)).map (fun b => (r, b)))) := by
  constructor
  · exact buildIndex_find_getLast
  · intro deposit_data billing_data deposit_key billing_key
    rw [key_based_matcher, matchLoop_matched, List.nil_append]

/-- C3 witness: on a target set with a duplicated key, the lookup for that
key is the last matching record. -/
theorem C3_witness :
    indexFind? (buildIndex
        [[("k", Value.num 1), ("a", Value.num 1)], [("k", Value.num 1), ("a", Value.num 2)]] "k")
        (Value.num 1)
      = (([[("k", Value.num 1), ("a", Value.num 1)],
          [("k", Value.num 1), ("a", Value.num 2)]] : List Record).filter
          (fun r => (r.getV "k").pyEq (Value.num 1))).getLast? :=
  C3_amended_last_occurrence.1
    [[("k", Value.num 1), ("a", Value.num 1)], [("k", Value.num 1), ("a", Value.num 2)]]
    "k" (Value.num 1) (by decide)

/-- C9: source records sharing a key value that hits the target index each
produce their own matched pair with the same indexed target record, so the
matched-pair count can exceed the target record count (concretely: two
source records, one target record, two matched pairs and an empty
remaining pool). -/
theorem C9_duplicate_source_keys :
    (∀ (deposit_data billing_data : List Record) (deposit_key billing_key : String)
       (r1 r2 : Record) (b : Record),
      r1 ∈ deposit_data → r2 ∈ deposit_data →
      r1.getV deposit_key = r2.getV deposit_key →
      indexFind? (buildIndex billing_data billing_key) (r1.getV deposit_key) = some b →
      (r1, b) ∈ (key_based_matcher deposit_data billing_data deposit_key billing_key).matched_pairs
        ∧ (r2, b) ∈ (key_based_matcher deposit_data billing_data deposit_key billing_key).matched_pairs)
    ∧ ((key_based_matcher
          [[("k", Value.num 3), ("i", Value.num 1)], [("k", Value.num 3), ("i", Value.num 2)]]
          [[("k", Value.num 3)]] "k" "k").matched_pairs
        = [([("k", Value.num 3), ("i", Value.num 1)], [("k", Value.num 3)]),
           ([("k", Value.num 3), ("i", Value.num 2)], [("k", Value.num 3)])])
    ∧ ((key_based_matcher
          [[("k", Value.num 3), ("i", Value.num 1)], [("k", Value.num 3), ("i", Value.num 2)]]
          [[("k", Value.num 3)]] "k" "k").unmatched_billing = []) := by
  refine ⟨?_, by decide, by decide⟩
  intro deposit_data billing_data deposit_key billing_key r1 r2 b h1 h2 hkey hfind
  rw [key_based_matcher, matchLoop_matched, List.nil_append]
  constructor
  · exact List.mem_filterMap.mpr ⟨r1, h1, by rw [hfind]; rfl⟩
  · exact List.mem_filterMap.mpr ⟨r2, h2, by rw [← hkey, hfind]; rfl⟩

/-- C9 witness: both duplicate-keyed source records pair with the same
single target record. -/
theorem C9_witness :
    ([("k", Value.num 3), ("i", Value.num 1)], ([("k", Value.num 3)] : Record))
      ∈ (key_based_matcher
          [[("k", Value.num 3), ("i", Value.num 1)], [("k", Value.num 3), ("i", Value.num 2)]]
          [[("k", Value.num 3)]] "k" "k").matched_pairs
    ∧ ([("k", Value.num 3), ("i", Value.num 2)], ([("k", Value.num 3)] : Record))
      ∈ (key_based_matcher
          [[("k", Value.num 3), ("i", Value.num 1)], [("k", Value.num 3), ("i", Value.num 2)]]
          [[("k", Value.num 3)]] "k" "k").matched_pairs :=
  C9_duplicate_source_keys.1
    [[("k", Value.num 3), ("i", Value.num 1)], [("k", Value.num 3), ("i", Value.num 2)]]
    [[("k", Value.num 3)]] "k" "k"
    [("k", Value.num 3), ("i", Value.num 1)] [("k", Value.num 3), ("i", Value.num 2)]
    [("k", Value.num 3)] (by decide) (by decide) (by decide) (by decide)

/-- C4: the numeric validator returns false when either value fails
conversion, and otherwise passes exactly when the absolute difference is
within `abs(v1) * tolerance / 100`; at the boundary, 100 vs 101 passes a
1-percent tolerance while 100 vs 101.01 fails it; and with `v1 = 0` only
`v2 = 0` passes, for any nonnegative tolerance. -/
theorem C4_numeric_validator :
    (∀ (v1 v2 : Value) (t : ℚ),
      ((∃ e, pyFloat v1 = .error e) ∨ (∃ e, pyFloat v2 = .error e)) →
      numeric_field_validator v1 v2 t = false)
    ∧ (∀ (v1 v2 : Value) (q1 q2 t : ℚ), pyFloat v1 = .ok q1 → pyFloat v2 = .ok q2 →
      (numeric_field_validator v1 v2 t = true ↔ |q1 - q2| ≤ |q1| * t / 100))
    ∧ numeric_field_validator (.num 100) (.num 101) 1 = true
    ∧ numeric_field_validator (.num 100) (.num (10101 / 100)) 1 = false
    ∧ (∀ (v2 : Value) (q2 t : ℚ), 0 ≤ t → pyFloat v2 = .ok q2 →
      (numeric_field_validator (.num 0) v2 t = true ↔ q2 = 0)) := by
  refine ⟨numeric_validator_error_false, ?_, ?_, ?_, ?_⟩
  · intro v1 v2 q1 q2 t h1 h2
    rw [numeric_field_validator, h1, h2, mul_div_assoc]
    exact decide_eq_true_iff
  · have h100 : |(100 : ℚ)| = 100 := abs_of_nonneg (by norm_num)
    rw [numeric_field_validator]
    simp only [pyFloat]
    rw [decide_eq_true_eq, h100, abs_le]
    constructor <;> norm_num
  · rw [numeric_field_validator]
    simp only [pyFloat]
    rw [decide_eq_false_iff_not, not_le,
      show ((100 : ℚ) - 10101 / 100) = -(101 / 100) by norm_num, abs_neg,
      abs_of_nonneg (by norm_num : (0 : ℚ) ≤ 101 / 100),
      abs_of_nonneg (by norm_num : (0 : ℚ) ≤ 100)]
    norm_num
  · intro v2 q2 t _ h2
    rw [numeric_field_validator, h2]
    simp only [pyFloat]
    rw [decide_eq_true_eq, zero_sub, abs_neg, abs_zero, zero_mul, abs_nonpos_iff]

/-- C4 witness: a non-numeric string is rejected regardless of tolerance,
and zero against zero passes. -/
theorem C4_witness :
    numeric_field_validator (.str "abc") (.num 5) 10 = false
    ∧ (numeric_field_validator (.num 0) (.num 0) 1 = true ↔ (0 : ℚ) = 0) :=
  ⟨C4_numeric_validator.1 (.str "abc") (.num 5) 10 (Or.inl ⟨.valueError, rfl⟩),
   C4_numeric_validator.2.2.2.2 (.num 0) 0 1 (by norm_num) rfl⟩

/-- C7 counterexample.  The claim states every field validator is total
and never raises; the absolute-difference validator has no conversion and
no exception handler, so a non-numeric operand raises `TypeError`. -/
theorem C7_counterexample :
    difference_validator (.str "abc") (.num 5) (1 / 100) = .error .typeError := rfl

/-- C7 (amended): the percentage-tolerance numeric validator and the
string validator are total on all record values (invalid numeric input
yields false, never an error); the absolute-difference validator is total
only on numeric operands, where it never raises. -/
theorem C7_amended_totality :
    (∀ (v1 v2 : Value) (t : ℚ),
      ((∃ e, pyFloat v1 = .error e) ∨ (∃ e, pyFloat v2 = .error e)) →
      numeric_field_validator v1 v2 t = false)
    ∧ (∀ v1 v2 : Value, string_field_validator v1 v2 = true ↔ pyStr v1 = pyStr v2)
    ∧ (∀ q1 q2 t : ℚ, ∃ b, difference_validator (.num q1) (.num q2) t = .ok b) := by
  refine ⟨numeric_validator_error_false, ?_, ?_⟩
  · intro v1 v2
    rw [string_field_validator]
    exact beq_iff_eq
  · intro q1 q2 t
    exact ⟨decide (|q1 - q2| ≤ t), rfl⟩

/-- C7 witness: a null operand yields false from the numeric validator
rather than an error. -/
theorem C7_witness :
    numeric_field_validator .null (.num 1) 5 = false :=
  C7_amended_totality.1 .null (.num 1) 5 (Or.inl ⟨.typeError, rfl⟩)

/-- C8 failing input: a matched pair whose source `amount` is null.
`validate_and_sort_matches` catches only `ValueError` around `float()`, so
the `TypeError` raised by a null amount escapes and the run aborts, while
the generic workflow's Mode A (which also catches `TypeError`) completes
and still accounts for the record (one output row for one input pair). -/
theorem C8_null_amount_fatal :
    validate_and_sort_matches
        ⟨[([("amount", Value.null)], [("amount", Value.num 100)])], [], []⟩
      = .error .typeError
    ∧ ((modeA ⟨[([("amount", Value.null)], [("amount", Value.num 100)])], [], []⟩
          "amount" "amount" 0).1.length
        + (modeA ⟨[([("amount", Value.null)], [("amount", Value.num 100)])], [], []⟩
          "amount" "amount" 0).2.length = 1) :=
  ⟨rfl, by decide⟩

/-- C5 counterexample.  The claim states that when a compared value fails
numeric conversion the record routed to `unreconciled` is the source-target
merge tagged `validation_error = invalid_numeric`.  The code actually
merges the whole mutated pair dictionary (`{**src, **tgt, **pair}`), so
the row additionally carries nested `deposit` and `billing` entries. -/
theorem C5_counterexample :
    ((modeA ⟨[([("id", Value.num 1), ("amount", Value.str "abc")],
               [("id", Value.num 1), ("amount", Value.num 5)])], [], []⟩
        "amount" "amount" 0).2
      ≠ [mergeO (mergeO (Record.toO [("id", Value.num 1), ("amount", Value.str "abc")])
          (Record.toO [("id", Value.num 1), ("amount", Value.num 5)]))
          [("validation_error", OValue.scalar (Value.str "invalid_numeric"))]])
    ∧ ((modeA ⟨[([("id", Value.num 1), ("amount", Value.str "abc")],
               [("id", Value.num 1), ("amount", Value.num 5)])], [], []⟩
        "amount" "amount" 0).2
      = [[("id", OValue.scalar (Value.num 1)), ("amount", OValue.scalar (Value.num 5)),
          ("deposit", OValue.table [("id", Value.num 1), ("amount", Value.str "abc")]),
          ("billing", OValue.table [("id", Value.num 1), ("amount", Value.num 5)]),
          ("validation_error", OValue.scalar (Value.str "invalid_numeric"))]]) := by
  refine ⟨by decide, by decide⟩

/-- C5 (amended): Mode A routes each matched pair per `modeAStep` —
reconciled is the plain source-target merge when both fields convert and
the validator passes; on a validator failure the merge gains a signed
`difference = v1 - v2` field; on a conversion failure the merge gains the
pair's nested `deposit` and `billing` entries and the
`validation_error = invalid_numeric` tag — and every unmatched source and
target record is appended to `unreconciled` unchanged. -/
theorem C5_modeA_classification :
    (∀ (results : MatchResult) (nf tnf : String) (tol : ℚ),
      (modeA results nf tnf tol).1
        = results.matched_pairs.filterMap (fun p => (modeAStep nf tnf tol p).getLeft?)
      ∧ (modeA results nf tnf tol).2
        = results.matched_pairs.filterMap (fun p => (modeAStep nf tnf tol p).getRight?)
          ++ results.unmatched_deposit.map Record.toO
          ++ results.unmatched_billing.map Record.toO)
    ∧ (∀ (src tgt : Record) (nf tnf : String) (tol : ℚ) (q1 q2 : ℚ),
      pyFloat (src.getD nf (.num 0)) = .ok q1 →
      pyFloat (tgt.getD tnf (.num 0)) = .ok q2 →
      modeAStep nf tnf tol (src, tgt)
        = if numeric_field_validator (.num q1) (.num q2) tol
          then .inl (mergeO src.toO tgt.toO)
          else .inr (mergeO (mergeO src.toO tgt.toO)
            [("difference", OValue.scalar (.num (q1 - q2)))]))
    ∧ (∀ (src tgt : Record) (nf tnf : String) (tol : ℚ),
      ((∃ e, pyFloat (src.getD nf (.num 0)) = .error e)
        ∨ (∃ e, pyFloat (tgt.getD tnf (.num 0)) = .error e)) →
      modeAStep nf tnf tol (src, tgt)
        = .inr (mergeO (mergeO src.toO tgt.toO)
            [("deposit", OValue.table src), ("billing", OValue.table tgt),
             ("validation_error", OValue.scalar (.str "invalid_numeric"))])) := by
  refine ⟨?_, ?_, ?_⟩
  · intro results nf tnf tol
    constructor <;> simp [modeA, modeALoop_spec]
  · intro src tgt nf tnf tol q1 q2 h1 h2
    rw [modeAStep]
    simp only [h1, h2]
  · intro src tgt nf tnf tol h
    rw [modeAStep]
    rcases h with ⟨e, he⟩ | ⟨e, he⟩
    · cases h2 : pyFloat (tgt.getD tnf (.num 0)) <;> simp only [he, h2]
    · cases h1 : pyFloat (src.getD nf (.num 0)) <;> simp only [he, h1]

/-- C5 witness: the conversion-failure branch at a concrete pair. -/
theorem C5_witness :
    modeAStep "amount" "amount" 0
        ([("id", Value.num 1), ("amount", Value.str "abc")],
         [("id", Value.num 1), ("amount", Value.num 5)])
      = .inr (mergeO (mergeO (Record.toO [("id", Value.num 1), ("amount", Value.str "abc")])
          (Record.toO [("id", Value.num 1), ("amount", Value.num 5)]))
          [("deposit", OValue.table [("id", Value.num 1), ("amount", Value.str "abc")]),
           ("billing", OValue.table [("id", Value.num 1), ("amount", Value.num 5)]),
           ("validation_error", OValue.scalar (.str "invalid_numeric"))]) :=
  C5_modeA_classification.2.2
    [("id", Value.num 1), ("amount", Value.str "abc")]
    [("id", Value.num 1), ("amount", Value.num 5)]
    "amount" "amount" 0 (Or.inl ⟨.valueError, rfl⟩)

/-- C6: Mode B reads only the matched pairs (unmatched records contribute
no rows); with every rule's tolerance converting, the report is exactly
one row per mismatching rule per pair, evaluated in list order with no
short-circuiting; each row carries the pair's source-key value, the
failing field, both values and the rule's severity; and the spec's HR
scenario yields exactly the two rows with severities Warning and Error. -/
theorem C6_modeB_report :
    (∀ (mp : List (Record × Record)) (ud ub ud2 ub2 : List Record)
       (rules : List Record) (sk : String),
      modeB ⟨mp, ud, ub⟩ rules sk = modeB ⟨mp, ud2, ub2⟩ rules sk)
    ∧ (∀ (results : MatchResult) (rules : List Record) (sk : String),
      (∀ p ∈ results.matched_pairs, ∀ rule ∈ rules,
        ∃ b, ruleMismatch p.1 p.2 rule = .ok b) →
      modeB results rules sk
        = .ok ((results.matched_pairs.map (fun p =>
            rules.filterMap (fun rule =>
              match ruleMismatch p.1 p.2 rule with
              | .ok true => some (ruleRow sk (p.1.getV sk) rule p.1 p.2)
              | _ => none))).flatten))
    ∧ (∀ (sk : String) (kv : Value) (rule src tgt : Record),
      sk ≠ "field" → sk ≠ "master_value" → sk ≠ "list_value" → sk ≠ "severity" →
      (ruleRow sk kv rule src tgt).getV sk = kv
      ∧ (ruleRow sk kv rule src tgt).getV "field" = srcFieldOf rule
      ∧ (ruleRow sk kv rule src tgt).getV "master_value"
          = getByValue src (srcFieldOf rule)
      ∧ (ruleRow sk kv rule src tgt).getV "list_value"
          = getByValue tgt (tgtFieldOf rule)
      ∧ (ruleRow sk kv rule src tgt).getV "severity"
          = rule.getD "severity" (.str "Error"))
    ∧ (modeB (key_based_matcher
          [[("employee_id", Value.num 1001), ("department_code", Value.str "D01"),
            ("title_code", Value.str "T03")]]
          [[("emp_id", Value.num 1001), ("dept", Value.str "D02"),
            ("title_code", Value.str "T05")]]
          "employee_id" "emp_id")
        [[("field", Value.str "department_code"), ("target_field", Value.str "dept"),
          ("severity", Value.str "Warning")],
         [("field", Value.str "title_code"), ("severity", Value.str "Error")]]
        "employee_id"
      = .ok [[("employee_id", Value.num 1001), ("field", Value.str "department_code"),
              ("master_value", Value.str "D01"), ("list_value", Value.str "D02"),
              ("severity", Value.str "Warning")],
             [("employee_id", Value.num 1001), ("field", Value.str "title_code"),
              ("master_value", Value.str "T03"), ("list_value", Value.str "T05"),
              ("severity", Value.str "Error")]]) := by
  refine ⟨?_, ?_, ?_, ?_⟩
  · intro mp ud ub ud2 ub2 rules sk
    rfl
  · intro results rules sk h
    exact modeBPairs_spec sk rules results.matched_pairs h
  · intro sk kv rule src tgt h1 h2 h3 h4
    simp only [ruleRow]
    refine ⟨?_, ?_, ?_, ?_, ?_⟩
    · rw [recInsert_getV_ne _ _ _ _ h4, recInsert_getV_ne _ _ _ _ h3,
        recInsert_getV_ne _ _ _ _ h2, recInsert_getV_ne _ _ _ _ h1]
      rw [recInsert_getV]
    · rw [recInsert_getV_ne _ _ _ _ (by decide), recInsert_getV_ne _ _ _ _ (by decide),
        recInsert_getV_ne _ _ _ _ (by decide), recInsert_getV]
    · rw [recInsert_getV_ne _ _ _ _ (by decide), recInsert_getV_ne _ _ _ _ (by decide),
        recInsert_getV]
    · rw [recInsert_getV_ne _ _ _ _ (by decide), recInsert_getV]
    · rw [recInsert_getV]
  · rfl

/-- C6 witness: the Mode B closed form applied to the HR scenario, with
every rule's tolerance conversion trivially succeeding. -/
theorem C6_witness :
    modeB (key_based_matcher
        [[("employee_id", Value.num 1001), ("department_code", Value.str "D01"),
          ("title_code", Value.str "T03")]]
        [[("emp_id", Value.num 1001), ("dept", Value.str "D02"),
          ("title_code", Value.str "T05")]]
        "employee_id" "emp_id")
      [[("field", Value.str "department_code"), ("target_field", Value.str "dept"),
        ("severity", Value.str "Warning")],
       [("field", Value.str "title_code"), ("severity", Value.str "Error")]]
      "employee_id"
    = .ok (List.flatten ((key_based_matcher
        [[("employee_id", Value.num 1001), ("department_code", Value.str "D01"),
          ("title_code", Value.str "T03")]]
        [[("emp_id", Value.num 1001), ("dept", Value.str "D02"),
          ("title_code", Value.str "T05")]]
        "employee_id" "emp_id").matched_pairs.map (fun p =>
          ([[("field", Value.str "department_code"), ("target_field", Value.str "dept"),
             ("severity", Value.str "Warning")],
            [("field", Value.str "title_code"), ("severity", Value.str "Error")]] :
              List Record).filterMap (fun rule =>
            match ruleMismatch p.1 p.2 rule with
            | .ok true => some (ruleRow "employee_id" (p.1.getV "employee_id") rule p.1 p.2)
            | _ => none)))) :=
  C6_modeB_report.2.1 _ _ "employee_id" (by
    intro p hp rule hr
    have hmp : (key_based_matcher
        [[("employee_id", Value.num 1001), ("department_code", Value.str "D01"),
          ("title_code", Value.str "T03")]]
        [[("emp_id", Value.num 1001), ("dept", Value.str "D02"),
          ("title_code", Value.str "T05")]]
        "employee_id" "emp_id").matched_pairs
      = [([("employee_id", Value.num 1001), ("department_code", Value.str "D01"),
           ("title_code", Value.str "T03")],
          [("emp_id", Value.num 1001), ("dept", Value.str "D02"),
           ("title_code", Value.str "T05")])] := by decide
    rw [hmp] at hp
    simp only [List.mem_singleton] at hp
    subst hp
    simp only [List.mem_cons, List.not_mem_nil, or_false] at hr
    rcases hr with hr | hr <;> subst hr
    · exact ⟨true, rfl⟩
    · exact ⟨true, rfl⟩)

/-- C10: Mode B rule defaults — a missing severity reports as Error; a
missing or non-numeric validator kind means stringified equality; the
compared source field is `source_field` when present and non-empty,
otherwise `field`; and a numeric rule without `tolerance_pct` uses
tolerance 0. -/
theorem C10_rule_defaults :
    (∀ (sk : String) (kv : Value) (rule src tgt : Record),
      rule.get? "severity" = none →
      (ruleRow sk kv rule src tgt).getV "severity" = .str "Error")
    ∧ (∀ rule : Record, rule.get? "validator" = none →
      (rule.getV "validator").pyEq (.str "numeric") = false)
    ∧ (∀ src tgt rule : Record,
      (rule.getV "validator").pyEq (.str "numeric") = false →
      ruleMismatch src tgt rule
        = .ok (!string_field_validator (getByValue src (srcFieldOf rule))
            (getByValue tgt (tgtFieldOf rule))))
    ∧ (∀ rule : Record,
      (rule.get? "source_field" = none → srcFieldOf rule = rule.getV "field")
      ∧ (rule.getV "source_field" = .str "" → srcFieldOf rule = rule.getV "field")
      ∧ (∀ s : String, s ≠ "" → rule.getV "source_field" = .str s →
          srcFieldOf rule = .str s))
    ∧ (∀ src tgt rule : Record,
      (rule.getV "validator").pyEq (.str "numeric") = true →
      rule.get? "tolerance_pct" = none →
      ruleMismatch src tgt rule
        = .ok (match pyFloat (getByValue src (srcFieldOf rule)),
                 pyFloat (getByValue tgt (tgtFieldOf rule)) with
               | .ok n1, .ok n2 => !numeric_field_validator (.num n1) (.num n2) 0
               | _, _ => true)) := by
  refine ⟨?_, ?_, ?_, ?_, ?_⟩
  · intro sk kv rule src tgt h
    simp only [ruleRow]
    rw [recInsert_getV, Record.getD, h]
    rfl
  · intro rule h
    rw [Record.getV, Record.getD, h]
    rfl
  · intro src tgt rule h
    simp only [ruleMismatch, h]
    rfl
  · intro rule
    refine ⟨?_, ?_, ?_⟩
    · intro h
      rw [srcFieldOf, Record.getV, Record.getD, h]
      rfl
    · intro h
      rw [srcFieldOf, h]
      rfl
    · intro s hs h
      rw [srcFieldOf, h, if_pos]
      simpa [Value.truthy] using hs
  · intro src tgt rule h1 h2
    simp only [ruleMismatch, h1, if_true]
    rw [Record.getD, h2]
    show (match pyFloat (getByValue src (srcFieldOf rule)),
            pyFloat (getByValue tgt (tgtFieldOf rule)) with
          | .ok n1, .ok n2 => Except.ok (!numeric_field_validator (.num n1) (.num n2) 0)
          | _, _ => Except.ok true) = _
    cases pyFloat (getByValue src (srcFieldOf rule)) <;>
      cases pyFloat (getByValue tgt (tgtFieldOf rule)) <;> rfl

/-- C10 witness: the defaults at concrete rules — no severity key gives an
Error row, an empty source_field falls back to field, and a numeric rule
without tolerance evaluates at tolerance 0. -/
theorem C10_witness :
    (ruleRow "id" (Value.num 1) [("field", Value.str "f")] [] []).getV "severity"
      = .str "Error"
    ∧ srcFieldOf [("source_field", Value.str ""), ("field", Value.str "g")]
      = Record.getV [("source_field", Value.str ""), ("field", Value.str "g")] "field"
    ∧ ruleMismatch [("amt", Value.num 3)] [("amt", Value.num 3)]
        [("field", Value.str "amt"), ("validator", Value.str "numeric")]
      = .ok (match pyFloat (getByValue [("amt", Value.num 3)]
              (srcFieldOf [("field", Value.str "amt"), ("validator", Value.str "numeric")])),
             pyFloat (getByValue [("amt", Value.num 3)]
              (tgtFieldOf [("field", Value.str "amt"), ("validator", Value.str "numeric")])) with
             | .ok n1, .ok n2 => !numeric_field_validator (.num n1) (.num n2) 0
             | _, _ => true) :=
  ⟨C10_rule_defaults.1 "id" (Value.num 1) [("field", Value.str "f")] [] [] rfl,
   (C10_rule_defaults.2.2.2.1 [("source_field", Value.str ""), ("field", Value.str "g")]).2.1 rfl,
   C10_rule_defaults.2.2.2.2 [("amt", Value.num 3)] [("amt", Value.num 3)]
     [("field", Value.str "amt"), ("validator", Value.str "numeric")] (by decide) rfl⟩

end AccountingAgent
